import Mathlib

/-!
# Verification of the `cargo-packager` detached-file-signing subsystem

A shallow embedding of `src/crates/packager/src/sign.rs` and proofs about it.

Modelling conventions:
* Byte strings (Rust `String`, `&str`, `OsStr`, file contents) are `List Nat`
  with each element a byte value; a Rust `&str` is exactly a byte slice that
  is valid UTF-8, so text is a byte list satisfying `isValidUtf8`.
* Paths (`Path`/`PathBuf`) are their byte sequences with `/` (byte 47) as
  separator.
* The filesystem is an association list from paths to file contents,
  threaded explicitly through every operation.
* External collaborators (the minisign signature library, `dunce`
  canonicalization) and fallible I/O primitives are parametrized by an
  environment `Env`: each primitive can be made to fail at a given path,
  which models the arbitrary I/O errors the Rust code can encounter.
-/

set_option autoImplicit false

namespace Sign

/-- A filesystem path, as its raw byte sequence (Unix-style, separator 47). -/
abbrev Path := List Nat

/-- Byte sequence of an ASCII Lean string (used for literal strings that the
source embeds in comments and suffixes; all of them are ASCII). -/
def ascii (s : String) : List Nat := s.data.map Char.toNat

/-! ## Filesystem model

An association list from paths to contents. `fsWrite` conses, and `fsGet`
returns the first match, so a later write shadows an earlier one; `fsRemove`
filters out every entry at the path. -/

/-- The filesystem: an association list path ↦ contents. -/
abbrev FS := List (Path × List Nat)

/-- Content of the file at `p`, if present. -/
def fsGet : FS → Path → Option (List Nat)
  | [], _ => none
  | (k, v) :: t, p => if k = p then some v else fsGet t p

/-- Does a file exist at `p`? (Rust `Path::exists`.) -/
def fsExists (fs : FS) (p : Path) : Bool := (fsGet fs p).isSome

/-- Create or overwrite the file at `p` with contents `v`. -/
def fsWrite (fs : FS) (p : Path) (v : List Nat) : FS := (p, v) :: fs

/-- Delete the file at `p` (Rust `fs::remove_file`). -/
def fsRemove : FS → Path → FS
  | [], _ => []
  | (k, v) :: t, p => if k = p then fsRemove t p else (k, v) :: fsRemove t p

/-! ## Base64 codec (the `base64` crate's `STANDARD` engine)

`generate_key` and the file signer use
`base64::engine::general_purpose::STANDARD`: the RFC 4648 alphabet with
mandatory canonical padding and no trailing bits allowed. -/

/-- The standard base64 alphabet: sextet value ↦ ASCII code. -/
def b64c (n : Nat) : Nat :=
  if n < 26 then 65 + n
  else if n < 52 then 71 + n
  else if n < 62 then n - 4
  else if n = 62 then 43
  else 47

/-- Inverse of the alphabet: ASCII code ↦ sextet value, `none` off-alphabet. -/
def b64d (c : Nat) : Option Nat :=
  if 65 ≤ c ∧ c ≤ 90 then some (c - 65)
  else if 97 ≤ c ∧ c ≤ 122 then some (c - 71)
  else if 48 ≤ c ∧ c ≤ 57 then some (c + 4)
  else if c = 43 then some 62
  else if c = 47 then some 63
  else none

/-- Base64-encode a byte sequence (output: ASCII codes, padded with `=`). -/
def b64encode : List Nat → List Nat
  | a :: b :: c :: rest =>
      b64c (a / 4) :: b64c (a % 4 * 16 + b / 16) :: b64c (b % 16 * 4 + c / 64)
        :: b64c (c % 64) :: b64encode rest
  | [a, b] => [b64c (a / 4), b64c (a % 4 * 16 + b / 16), b64c (b % 16 * 4), 61]
  | [a] => [b64c (a / 4), b64c (a % 4 * 16), 61, 61]
  | [] => []

/-- Strict base64 decoding: requires length a multiple of four, canonical
padding in the last quad only, and zero trailing bits (`STANDARD` rejects
non-canonical encodings). Returns `none` on malformed input. -/
def b64decode : List Nat → Option (List Nat)
  | [] => some []
  | c1 :: c2 :: c3 :: c4 :: rest =>
      match b64d c1, b64d c2 with
      | some s1, some s2 =>
        if c3 = 61 then
          if c4 = 61 ∧ rest = [] ∧ s2 % 16 = 0 then some [s1 * 4 + s2 / 16]
          else none
        else
          match b64d c3 with
          | some s3 =>
            if c4 = 61 then
              if rest = [] ∧ s3 % 4 = 0 then
                some [s1 * 4 + s2 / 16, s2 % 16 * 16 + s3 / 4]
              else none
            else
              match b64d c4 with
              | some s4 =>
                (b64decode rest).map
                  (fun bs => (s1 * 4 + s2 / 16) :: (s2 % 16 * 16 + s3 / 4)
                    :: (s3 % 4 * 64 + s4) :: bs)
              | none => none
          | none => none
      | _, _ => none
  | _ => none

/-- All elements are byte values. -/
def allBytes (bs : List Nat) : Prop := ∀ b ∈ bs, b < 256

/-! ## UTF-8 validation and lossy conversion

Rust's `str::from_utf8` accepts exactly well-formed UTF-8 (RFC 3629: no
surrogates, no overlong forms, max U+10FFFF). `OsStr::to_string_lossy`
replaces each maximal valid prefix of an ill-formed sequence with U+FFFD
(bytes EF BF BD), mirroring `String::from_utf8_lossy`. -/

/-- Is `b` a UTF-8 continuation byte (`0x80..=0xBF`)? -/
def contB (b : Nat) : Bool := 128 ≤ b && b < 192

/-- Classify the UTF-8 sequence starting at byte `b` followed by `rest`:
`(valid, consumed)` where `consumed ≥ 1` is the length of the sequence if
valid, or of the maximal valid prefix if not (Rust's `Utf8Error::error_len`
semantics, which drives both validation and lossy replacement). -/
def chunk (b : Nat) (rest : List Nat) : Bool × Nat :=
  if b < 128 then (true, 1)
  else if b < 194 then (false, 1)
  else if b < 224 then
    match rest with
    | b2 :: _ => if contB b2 then (true, 2) else (false, 1)
    | [] => (false, 1)
  else if b < 240 then
    let lo2 : Nat := if b = 224 then 160 else 128
    let hi2 : Nat := if b = 237 then 160 else 192
    match rest with
    | b2 :: rest2 =>
      if lo2 ≤ b2 && b2 < hi2 then
        match rest2 with
        | b3 :: _ => if contB b3 then (true, 3) else (false, 2)
        | [] => (false, 2)
      else (false, 1)
    | [] => (false, 1)
  else if b < 245 then
    let lo2 : Nat := if b = 240 then 144 else 128
    let hi2 : Nat := if b = 244 then 144 else 192
    match rest with
    | b2 :: rest2 =>
      if lo2 ≤ b2 && b2 < hi2 then
        match rest2 with
        | b3 :: rest3 =>
          if contB b3 then
            match rest3 with
            | b4 :: _ => if contB b4 then (true, 4) else (false, 3)
            | [] => (false, 3)
          else (false, 2)
        | [] => (false, 2)
      else (false, 1)
    | [] => (false, 1)
  else (false, 1)

/-- Well-formed UTF-8 (the acceptance condition of `str::from_utf8`). -/
def isValidUtf8 : List Nat → Bool
  | [] => true
  | b :: rest =>
    (chunk b rest).1 && isValidUtf8 (rest.drop ((chunk b rest).2 - 1))
termination_by bs => bs.length
decreasing_by simp; omega

/-- Lossy UTF-8 conversion (`to_string_lossy`), as the byte sequence of the
resulting string: valid sequences are copied, each maximal invalid prefix
becomes U+FFFD (`EF BF BD`). -/
def utf8Lossy : List Nat → List Nat
  | [] => []
  | b :: rest =>
    (if (chunk b rest).1 then b :: rest.take ((chunk b rest).2 - 1)
     else [239, 191, 189]) ++ utf8Lossy (rest.drop ((chunk b rest).2 - 1))
termination_by bs => bs.length
decreasing_by simp; omega

/-! ## Decimal rendering of the timestamp

`format!("{}", since_epoch)` renders the seconds count in decimal. -/

/-- Accumulator pass producing the decimal digits (ASCII) of `n` before
`acc`. -/
def digitsAux : Nat → List Nat → List Nat
  | 0, acc => acc
  | n + 1, acc => digitsAux ((n + 1) / 10) (((n + 1) % 10 + 48) :: acc)
decreasing_by exact Nat.div_lt_self (by omega) (by omega)

/-- Decimal ASCII rendering of a natural number (Rust `Display` for `u64`). -/
def natDigits (n : Nat) : List Nat := if n = 0 then [48] else digitsAux n []

/-! ## `Path::file_name`

Rust's `Path::file_name` returns the last *normal* component: separators are
`/`, empty and `.` segments are skipped during component parsing, and a path
whose last component is `..` (or that has no component at all, like `/` or
the empty path) has no file name. -/

/-- Split a byte path at `/` (byte 47), keeping empty segments. -/
def splitSlash : List Nat → List (List Nat)
  | [] => [[]]
  | b :: rest =>
    if b = 47 then [] :: splitSlash rest
    else
      match splitSlash rest with
      | s :: t => (b :: s) :: t
      | [] => [[b]]

/-- Embeds `Path::file_name` on byte paths: the last segment after dropping
empty and `.` segments, unless it is `..`. -/
def fileName (p : Path) : Option (List Nat) :=
  match ((splitSlash p).filter
      (fun s => decide (s ≠ [] ∧ s ≠ [46]))).getLast? with
  | none => none
  | some s => if s = [46, 46] then none else some s

/-! ## Error type and environment -/

/-- Modelled from the spec: `crate::Error` (the packager's error enum, which
lives outside `src/`). Variants follow the spec's §7 taxonomy —
`SigningKeyExists(path)`, `FailedToExtractFilename(path)`,
`IoWithPath(path, cause)` — plus the variants the code in `sign.rs` produces
through `?`-conversions: `io` is the `From<std::io::Error>` conversion used
by `?` on `write!`/`flush` (it receives only the `io::Error`, so it cannot
carry a path); `base64Decode` and `utf8` are the `InvalidEncoding`-class
conversions from `base64::DecodeError` and `str::Utf8Error`; `minisign` and
`systemTime` wrap collaborator and clock failures. Causes carry no data the
claims inspect, so they are omitted. -/
inductive SignError where
  | signingKeyExists (path : Path)
  | failedToExtractFilename (path : Path)
  | ioWithPath (path : Path)
  | io
  | base64Decode
  | utf8
  | minisign
  | systemTime
deriving DecidableEq, Repr

/-- Does the error name a concrete file path? -/
def namesPath : SignError → Bool
  | .signingKeyExists _ => true
  | .failedToExtractFilename _ => true
  | .ioWithPath _ => true
  | _ => false

/-- Is the error one of the `InvalidEncoding` conversions of
`decode_base64`? -/
def invalidEncodingClass : SignError → Bool
  | .base64Decode => true
  | .utf8 => true
  | _ => false

/-- The ambient world of a run: which fallible I/O primitives fail at which
path, plus the two external collaborators (path canonicalization and the
minisign signer `sign(key, bytes, trustedComment, untrustedComment)`). -/
structure Env where
  removeFail : Path → Bool
  createFail : Path → Bool
  writeFail : Path → Bool
  flushFail : Path → Bool
  canonFail : Path → Bool
  openFail : Path → Bool
  canon : Path → Path
  msign : List Nat → List Nat → List Nat → List Nat → Except Unit (List Nat)

/-! ## Embedded source functions -/

/-- Embeds `KeyPair` (sign.rs:27-32): base64-encoded public and secret key
box texts. -/
structure KeyPair where
  pk : List Nat
  sk : List Nat

/-- Embeds `decode_base64` (sign.rs:53-56): strict base64 decode, then
UTF-8 validation of the decoded bytes; each `?` produces its
`InvalidEncoding`-class error. A pure function of its input. -/
def decode_base64 (base64_key : List Nat) : Except SignError (List Nat) :=
  match b64decode base64_key with
  | none => .error .base64Decode
  | some bytes => if isValidUtf8 bytes then .ok bytes else .error .utf8

/-- Modelled from the spec: `util::create_file` (in `util.rs`, outside
`src/`) creates/truncates the file at `p` and returns a buffered writer;
per §4.4/§7 its filesystem error is wrapped with the offending path
attached. On success the file exists and is empty from this point on. -/
def createFile (env : Env) (fs : FS) (p : Path) : FS × Option SignError :=
  if env.createFail p then (fs, some (.ioWithPath p))
  else (fsWrite fs p [], none)

/-- Modelled from the spec: `PathExt::with_additional_extension` (in
`util.rs`, outside `src/`) derives the sibling path by "appending a fixed
`.sig`-style suffix to `path`" (§4.6 step 1): `path` ++ `"."` ++ `ext`. -/
def withAdditionalExtension (p : Path) (ext : List Nat) : Path :=
  p ++ 46 :: ext

/-- The external `dunce::simplified` collaborator strips Windows verbatim
(`\\?\`) prefixes and leaves other paths untouched; on the Unix-style byte
paths modelled here it is the identity. -/
def simplified (p : Path) : Path := p

/-- The fixed untrusted comment attached to every signature
(sign.rs:184). -/
def untrustedComment : List Nat :=
  ascii "signature from cargo-packager secret key"

/-- Embeds `save_keypair` (sign.rs:72-106). The public-key path is
`format!("{}.pub", path.display())`: `Path::display` converts the path
lossily to text, so the derived path is `utf8Lossy path ++ ".pub"`. The
overwrite guard, the two unconditional-delete branches, the two
create/write/flush sequences and the final canonicalization follow the
source order; `write!`/`flush` failures surface through `?` as the plain
`io` error. -/
def save_keypair (keypair : KeyPair) (path : Path) (force : Bool) (env : Env)
    (fs : FS) : FS × Except SignError (Path × Path) :=
  let pk_path : Path := utf8Lossy path ++ ascii ".pub"
  let writeBoth : FS → FS × Except SignError (Path × Path) := fun fs =>
    match createFile env fs path with
    | (fs1, some e) => (fs1, .error e)
    | (fs1, none) =>
      if env.writeFail path then (fs1, .error .io)
      else if env.flushFail path then (fs1, .error .io)
      else
        let fs2 := fsWrite fs1 path keypair.sk
        match createFile env fs2 pk_path with
        | (fs3, some e) => (fs3, .error e)
        | (fs3, none) =>
          if env.writeFail pk_path then (fs3, .error .io)
          else if env.flushFail pk_path then (fs3, .error .io)
          else
            let fs4 := fsWrite fs3 pk_path keypair.pk
            if env.canonFail path then (fs4, .error (.ioWithPath path))
            else if env.canonFail pk_path then (fs4, .error (.ioWithPath pk_path))
            else (fs4, .ok (env.canon path, env.canon pk_path))
  let guardPk : FS → FS × Except SignError (Path × Path) := fun fs =>
    if fsExists fs pk_path then
      if env.removeFail pk_path then (fs, .error (.ioWithPath pk_path))
      else writeBoth (fsRemove fs pk_path)
    else writeBoth fs
  if fsExists fs path then
    if !force then (fs, .error (.signingKeyExists path))
    else if env.removeFail path then (fs, .error (.ioWithPath path))
    else guardPk (fsRemove fs path)
  else guardPk fs

/-- Embeds `sign_file_with_secret_key` (sign.rs:154-196). `clock` is the
outcome of `SystemTime::now().duration_since(UNIX_EPOCH)` (sign.rs:163-164),
read between creating the signature file and building the trusted comment:
`.ok now` is the seconds count, `.error` a pre-epoch clock, whose
`SystemTimeError` surfaces through `?` as the pathless `systemTime` error.
The signature file is created (truncated) first; then the clock is read;
then the trusted comment `timestamp:<now>\tfile:<lossy file name>` is
built, failing with `FailedToExtractFilename` when the path has no file
name; then the input is opened for reading (`IoWithPath(path)` on
failure); then the collaborator signs; the encoded signature is written
and flushed (`?`-converted plain `io` errors); the final canonicalization
failure is wrapped — as in the source — with the *input* path. -/
def sign_file_with_secret_key (secret_key : List Nat) (path : Path)
    (env : Env) (fs : FS) (clock : Except Unit Nat) :
    FS × Except SignError (Path × List Nat) :=
  let signature_path := simplified (withAdditionalExtension path (ascii "sig"))
  match createFile env fs signature_path with
  | (fs1, some e) => (fs1, .error e)
  | (fs1, none) =>
    match clock with
    | .error _ => (fs1, .error .systemTime)
    | .ok now =>
      match fileName path with
      | none => (fs1, .error (.failedToExtractFilename path))
      | some name =>
        let trusted_comment := ascii "timestamp:" ++ natDigits now ++ [9] ++
          ascii "file:" ++ utf8Lossy name
        if env.openFail path then (fs1, .error (.ioWithPath path))
        else
          match fsGet fs1 path with
          | none => (fs1, .error (.ioWithPath path))
          | some contents =>
            match env.msign secret_key contents trusted_comment
                untrustedComment with
            | .error _ => (fs1, .error .minisign)
            | .ok box =>
              let encoded_signature := b64encode box
              if env.writeFail signature_path then (fs1, .error .io)
              else if env.flushFail signature_path then (fs1, .error .io)
              else
                let fs2 := fsWrite fs1 signature_path encoded_signature
                if env.canonFail signature_path then
                  (fs2, .error (.ioWithPath path))
                else (fs2, .ok (env.canon signature_path, encoded_signature))

/-- Embeds `SigningConfig` (sign.rs:109-120): the private key text and the
optional password, with Rust's `Default` values. -/
structure SigningConfig where
  private_key : String := ""
  password : Option String := none
deriving DecidableEq

/-- Embeds `SigningConfig::new` (sign.rs:124-126): `Self::default()`. -/
def SigningConfig.new : SigningConfig := {}

/-- Embeds the builder method `SigningConfig::private_key` (sign.rs:129-132);
named `setPrivateKey` here because the field keeps the source name. -/
def SigningConfig.setPrivateKey (c : SigningConfig) (s : String) :
    SigningConfig :=
  { c with private_key := s }

/-- Embeds the builder method `SigningConfig::password` (sign.rs:135-139):
`Option::replace` makes the field `Some s`, the rest is unchanged. -/
def SigningConfig.setPassword (c : SigningConfig) (s : String) :
    SigningConfig :=
  { c with password := some s }

/-- A concrete environment for evaluating runs: no I/O failures, identity
canonicalization, and a signer that returns the fixed box text `[65]`. -/
def envOk : Env where
  removeFail := fun _ => false
  createFail := fun _ => false
  writeFail := fun _ => false
  flushFail := fun _ => false
  canonFail := fun _ => false
  openFail := fun _ => false
  canon := fun p => p
  msign := fun _ _ _ _ => .ok [65]

/-- A concrete environment whose buffered `write!` calls all fail. -/
def envWriteFails : Env := { envOk with writeFail := fun _ => true }

/-! ## Helper lemmas -/

theorem fsGet_fsWrite (fs : FS) (p q : Path) (v : List Nat) :
    fsGet (fsWrite fs p v) q = if p = q then some v else fsGet fs q := by
  simp [fsWrite, fsGet]

theorem fsGet_fsRemove (fs : FS) (p q : Path) :
    fsGet (fsRemove fs p) q = if p = q then none else fsGet fs q := by
  induction fs with
  | nil => simp [fsRemove, fsGet]
  | cons e t ih =>
    obtain ⟨k, v⟩ := e
    by_cases hk : k = p
    · subst hk
      have hr : fsRemove ((k, v) :: t) k = fsRemove t k := by simp [fsRemove]
      rw [hr, ih]
      by_cases hq : k = q <;> simp [fsGet, hq]
    · by_cases hq : k = q
      · subst hq
        have hpq : ¬ p = k := fun h => hk h.symm
        simp [fsRemove, fsGet, hk, hpq, ih]
      · simp [fsRemove, fsGet, hk, hq, ih]

theorem fsExists_iff (fs : FS) (p : Path) :
    fsExists fs p = true ↔ ∃ v, fsGet fs p = some v := by
  simp [fsExists, Option.isSome_iff_exists]

theorem b64d_b64c : ∀ n, n < 64 → b64d (b64c n) = some n := by decide

theorem b64c_ne_pad : ∀ n, n < 64 → b64c n ≠ 61 := by decide

theorem b64decode_b64encode :
    ∀ bs : List Nat, allBytes bs → b64decode (b64encode bs) = some bs
  | [], _ => rfl
  | [a], h => by
    have ha : a < 256 := h a (by simp)
    have h1 : a / 4 < 64 := by omega
    have h2 : a % 4 * 16 < 64 := by omega
    have e1 : a / 4 * 4 + a % 4 * 16 / 16 = a := by omega
    have e1' : a / 4 * 4 + a % 4 = a := by omega
    have e2 : a % 4 * 16 % 16 = 0 := by omega
    simp [b64encode, b64decode, b64d_b64c _ h1, b64d_b64c _ h2, e1, e1', e2]
  | [a, b], h => by
    have ha : a < 256 := h a (by simp)
    have hb : b < 256 := h b (by simp)
    have h1 : a / 4 < 64 := by omega
    have h2 : a % 4 * 16 + b / 16 < 64 := by omega
    have h3 : b % 16 * 4 < 64 := by omega
    have e0 : ¬ b64c (b % 16 * 4) = 61 := b64c_ne_pad _ h3
    have e1 : a / 4 * 4 + (a % 4 * 16 + b / 16) / 16 = a := by omega
    have e2 : (a % 4 * 16 + b / 16) % 16 * 16 + b % 16 * 4 / 4 = b := by omega
    have e2' : (a % 4 * 16 + b / 16) % 16 * 16 + b % 16 = b := by omega
    have e3 : b % 16 * 4 % 4 = 0 := by omega
    simp [b64encode, b64decode, b64d_b64c _ h1, b64d_b64c _ h2, b64d_b64c _ h3,
      e0, e1, e2, e2', e3]
  | a :: b :: c :: rest, h => by
    have ha : a < 256 := h a (by simp)
    have hb : b < 256 := h b (by simp)
    have hc : c < 256 := h c (by simp)
    have h1 : a / 4 < 64 := by omega
    have h2 : a % 4 * 16 + b / 16 < 64 := by omega
    have h3 : b % 16 * 4 + c / 64 < 64 := by omega
    have h4 : c % 64 < 64 := by omega
    have ih : b64decode (b64encode rest) = some rest :=
      b64decode_b64encode rest (fun x hx => h x (by simp [hx]))
    have e0 : ¬ b64c (b % 16 * 4 + c / 64) = 61 := b64c_ne_pad _ h3
    have e4 : ¬ b64c (c % 64) = 61 := b64c_ne_pad _ h4
    have e1 : a / 4 * 4 + (a % 4 * 16 + b / 16) / 16 = a := by omega
    have e2 : (a % 4 * 16 + b / 16) % 16 * 16 + (b % 16 * 4 + c / 64) / 4 = b := by
      omega
    have e3 : (b % 16 * 4 + c / 64) % 4 * 64 + c % 64 = c := by omega
    simp [b64encode, b64decode, b64d_b64c _ h1, b64d_b64c _ h2, b64d_b64c _ h3,
      b64d_b64c _ h4, e0, e4, ih, e1, e2, e3]

theorem utf8Lossy_of_valid :
    ∀ bs : List Nat, isValidUtf8 bs = true → utf8Lossy bs = bs
  | [], _ => by simp [utf8Lossy]
  | b :: rest, h => by
    rw [isValidUtf8] at h
    simp only [Bool.and_eq_true] at h
    rw [utf8Lossy, if_pos h.1,
      utf8Lossy_of_valid (rest.drop ((chunk b rest).2 - 1)) h.2]
    simp [List.take_append_drop]
termination_by bs => bs.length
decreasing_by simp; omega

theorem valid_of_utf8Lossy_eq_self :
    ∀ bs : List Nat, utf8Lossy bs = bs → isValidUtf8 bs = true
  | [], _ => by simp [isValidUtf8]
  | b :: rest, h => by
    rw [utf8Lossy] at h
    by_cases hc : (chunk b rest).1 = true
    · rw [if_pos hc] at h
      simp only [List.cons_append, List.cons.injEq] at h
      have hsplit : rest.take ((chunk b rest).2 - 1) ++
          rest.drop ((chunk b rest).2 - 1) = rest := List.take_append_drop _ _
      have htail : utf8Lossy (rest.drop ((chunk b rest).2 - 1)) =
          rest.drop ((chunk b rest).2 - 1) := by
        have h2 := h.2
        conv at h2 => rhs; rw [← hsplit]
        exact List.append_cancel_left h2
      rw [isValidUtf8]
      simp only [Bool.and_eq_true]
      exact ⟨hc, valid_of_utf8Lossy_eq_self _ htail⟩
    · rw [if_neg hc] at h
      exfalso
      have h' : 239 :: 191 :: 189 ::
          utf8Lossy (rest.drop ((chunk b rest).2 - 1)) = b :: rest := by
        simpa using h
      injection h' with hb htl
      rw [← htl, ← hb] at hc
      simp [chunk, contB] at hc
termination_by bs => bs.length
decreasing_by simp; omega

/-- Lossy conversion fixes exactly the valid strings; on an invalid name it
must change it (used for the trusted comment's `file:` field). -/
theorem utf8Lossy_ne_of_invalid (bs : List Nat) (h : isValidUtf8 bs = false) :
    utf8Lossy bs ≠ bs := fun he => by
  rw [valid_of_utf8Lossy_eq_self bs he] at h
  exact Bool.noConfusion h

theorem digitsAux_sub (n : Nat) (acc : List Nat) :
    ∀ d ∈ digitsAux n acc, d ∈ acc ∨ (48 ≤ d ∧ d ≤ 57) := by
  induction n using Nat.strong_induction_on generalizing acc with
  | _ n ih =>
    match n with
    | 0 =>
      intro d hd
      rw [digitsAux] at hd
      exact Or.inl hd
    | m + 1 =>
      intro d hd
      rw [digitsAux] at hd
      rcases ih ((m + 1) / 10) (Nat.div_lt_self (by omega) (by omega)) _ d hd
        with h | h
      · rcases List.mem_cons.mp h with h' | h'
        · right; omega
        · exact Or.inl h'
      · exact Or.inr h

theorem digitsAux_length (n : Nat) (acc : List Nat) :
    acc.length ≤ (digitsAux n acc).length := by
  induction n using Nat.strong_induction_on generalizing acc with
  | _ n ih =>
    match n with
    | 0 =>
      rw [digitsAux]
    | m + 1 =>
      rw [digitsAux]
      refine le_trans ?_ (ih ((m + 1) / 10)
        (Nat.div_lt_self (by omega) (by omega)) (((m + 1) % 10 + 48) :: acc))
      simp

theorem natDigits_ne_nil (n : Nat) : natDigits n ≠ [] := by
  unfold natDigits
  by_cases h : n = 0
  · simp [h]
  · rw [if_neg h]
    match n, h with
    | m + 1, _ =>
      intro hnil
      rw [digitsAux] at hnil
      have hlen := digitsAux_length ((m + 1) / 10) (((m + 1) % 10 + 48) :: [])
      rw [hnil] at hlen
      simp at hlen

theorem natDigits_digits (n : Nat) : ∀ d ∈ natDigits n, 48 ≤ d ∧ d ≤ 57 := by
  unfold natDigits
  by_cases h : n = 0
  · intro d hd
    simp [h] at hd
    omega
  · rw [if_neg h]
    intro d hd
    rcases digitsAux_sub n [] d hd with h' | h'
    · simp at h'
    · exact h'

set_option maxHeartbeats 1000000 in
theorem chunk_cases (b : Nat) (rest : List Nat) :
    (chunk b rest).2 - 1 ≤ rest.length ∧ (chunk b rest).2 ≤ 4 ∧
    ((chunk b rest).1 = false → (chunk b rest).2 ≤ 3) := by
  unfold chunk
  rcases rest with _ | ⟨b2, rest2⟩
  · split_ifs <;> simp
  · rcases rest2 with _ | ⟨b3, rest3⟩
    · split_ifs <;> simp_all <;> split_ifs <;> simp_all
    · rcases rest3 with _ | ⟨b4, rest4⟩ <;>
        split_ifs <;> simp_all <;> split_ifs <;> simp_all

theorem utf8Lossy_length : ∀ bs : List Nat, bs.length ≤ (utf8Lossy bs).length
  | [] => by simp [utf8Lossy]
  | b :: rest => by
    rw [utf8Lossy]
    have ih := utf8Lossy_length (rest.drop ((chunk b rest).2 - 1))
    obtain ⟨hc1, hc2, hc3⟩ := chunk_cases b rest
    by_cases hok : (chunk b rest).1 = true
    · rw [if_pos hok]
      simp only [List.length_append, List.length_cons, List.length_take,
        List.length_drop] at *
      omega
    · rw [if_neg hok]
      have h3 := hc3 (by revert hok; cases (chunk b rest).1 <;> simp)
      simp only [List.length_append, List.length_cons, List.length_drop] at *
      omega
termination_by bs => bs.length
decreasing_by simp; omega

theorem pkPath_ne (path : Path) : ¬ utf8Lossy path ++ ascii ".pub" = path := by
  intro h
  have hlen := congrArg List.length h
  have hge := utf8Lossy_length path
  simp [ascii] at hlen
  omega

theorem withAdditionalExtension_ne (p : Path) (ext : List Nat) :
    ¬ withAdditionalExtension p ext = p := by
  intro h
  have hlen := congrArg List.length h
  simp [withAdditionalExtension] at hlen

/-- A successful run of the file signer, fully described: under the stated
conditions, the only filesystem change is the signature file (created empty,
then overwritten with the encoded signature), and the result returns the
canonicalized signature path and the encoded signature. -/
theorem sign_run (secret_key : List Nat) (path : Path)
    (name contents box : List Nat) (env : Env) (fs : FS) (now : Nat)
    (hname : fileName path = some name)
    (hget : fsGet fs path = some contents)
    (hc : env.createFail (path ++ 46 :: ascii "sig") = false)
    (ho : env.openFail path = false)
    (hw : env.writeFail (path ++ 46 :: ascii "sig") = false)
    (hf : env.flushFail (path ++ 46 :: ascii "sig") = false)
    (hk : env.canonFail (path ++ 46 :: ascii "sig") = false)
    (hm : env.msign secret_key contents
      (ascii "timestamp:" ++ natDigits now ++ [9] ++ ascii "file:" ++
        utf8Lossy name) untrustedComment = .ok box) :
    sign_file_with_secret_key secret_key path env fs (.ok now) =
      (fsWrite (fsWrite fs (path ++ 46 :: ascii "sig") [])
        (path ++ 46 :: ascii "sig") (b64encode box),
       .ok (env.canon (path ++ 46 :: ascii "sig"), b64encode box)) := by
  have hne : ¬ (path ++ 46 :: ascii "sig" = path) :=
    withAdditionalExtension_ne path (ascii "sig")
  simp only [List.append_assoc, List.cons_append, List.singleton_append,
    List.nil_append] at hm
  unfold sign_file_with_secret_key simplified withAdditionalExtension createFile
  simp [hc, hname, ho, fsGet_fsWrite, hne, hget, hm, hw, hf, hk]

/-- A run of the file signer whose clock read fails (`duration_since`
error at sign.rs:164): the already created, empty signature file is the
only filesystem change and the pathless `systemTime` error is returned. -/
theorem sign_clockfail_run (secret_key : List Nat) (path : Path) (env : Env)
    (fs : FS) (u : Unit)
    (hc : env.createFail (path ++ 46 :: ascii "sig") = false) :
    sign_file_with_secret_key secret_key path env fs (.error u) =
      (fsWrite fs (path ++ 46 :: ascii "sig") [], .error .systemTime) := by
  unfold sign_file_with_secret_key simplified withAdditionalExtension createFile
  simp [hc]

/-- A run of the file signer on a path with no file-name component: the
signature file has already been created empty when the failure is returned,
and that is the only filesystem change; the input file is never consulted
and no signature is produced (the signer `env.msign` is arbitrary). -/
theorem sign_noname_run (secret_key : List Nat) (path : Path) (env : Env)
    (fs : FS) (now : Nat)
    (hc : env.createFail (path ++ 46 :: ascii "sig") = false)
    (hname : fileName path = none) :
    sign_file_with_secret_key secret_key path env fs (.ok now) =
      (fsWrite fs (path ++ 46 :: ascii "sig") [],
       .error (.failedToExtractFilename path)) := by
  unfold sign_file_with_secret_key simplified withAdditionalExtension createFile
  simp [hc, hname]

/-- A run of the file signer in which opening the input file for reading
fails (the primitive fails, or the file does not exist): the already
created, empty signature file is the only filesystem change. -/
theorem sign_openfail_run (secret_key : List Nat) (path : Path)
    (name : List Nat) (env : Env) (fs : FS) (now : Nat)
    (hc : env.createFail (path ++ 46 :: ascii "sig") = false)
    (hname : fileName path = some name)
    (hopen : env.openFail path = true ∨ fsGet fs path = none) :
    sign_file_with_secret_key secret_key path env fs (.ok now) =
      (fsWrite fs (path ++ 46 :: ascii "sig") [],
       .error (.ioWithPath path)) := by
  have hne : ¬ (path ++ 46 :: ascii "sig" = path) :=
    withAdditionalExtension_ne path (ascii "sig")
  unfold sign_file_with_secret_key simplified withAdditionalExtension createFile
  rcases hopen with ho | ho <;>
    simp [hc, hname, ho, fsGet_fsWrite, hne]

/-- A fault-free forced run of `save_keypair`: it succeeds, stores the
secret key at `path` and the public key at the derived public-key path, and
touches nothing else. -/
theorem save_keypair_force (kp : KeyPair) (path : Path) (env : Env) (fs : FS)
    (hr : ∀ p, env.removeFail p = false)
    (hc : ∀ p, env.createFail p = false)
    (hw : ∀ p, env.writeFail p = false)
    (hf : ∀ p, env.flushFail p = false)
    (hk : ∀ p, env.canonFail p = false) :
    (save_keypair kp path true env fs).2 =
      .ok (env.canon path, env.canon (utf8Lossy path ++ ascii ".pub")) ∧
    ∀ q, fsGet (save_keypair kp path true env fs).1 q =
      if q = utf8Lossy path ++ ascii ".pub" then some kp.pk
      else if q = path then some kp.sk
      else fsGet fs q := by
  have hmain : ∃ base : FS,
      (∀ q, ¬ q = path → ¬ q = utf8Lossy path ++ ascii ".pub" →
        fsGet base q = fsGet fs q) ∧
      save_keypair kp path true env fs =
        (fsWrite (fsWrite (fsWrite (fsWrite base path []) path kp.sk)
          (utf8Lossy path ++ ascii ".pub") [])
          (utf8Lossy path ++ ascii ".pub") kp.pk,
         .ok (env.canon path, env.canon (utf8Lossy path ++ ascii ".pub"))) := by
    unfold save_keypair createFile
    by_cases he1 : fsExists fs path = true
    · by_cases he2 :
        fsExists (fsRemove fs path) (utf8Lossy path ++ ascii ".pub") = true
      · refine ⟨fsRemove (fsRemove fs path) (utf8Lossy path ++ ascii ".pub"),
          ?_, ?_⟩
        · intro q hq1 hq2
          have hs1 : ¬ path = q := fun h => hq1 h.symm
          have hs2 : ¬ utf8Lossy path ++ ascii ".pub" = q := fun h => hq2 h.symm
          simp [fsGet_fsRemove, hs1, hs2]
        · simp [he1, he2, hr, hc, hw, hf, hk]
      · refine ⟨fsRemove fs path, ?_, ?_⟩
        · intro q hq1 hq2
          have hs1 : ¬ path = q := fun h => hq1 h.symm
          simp [fsGet_fsRemove, hs1]
        · simp [he1, he2, hr, hc, hw, hf, hk]
    · by_cases he2 : fsExists fs (utf8Lossy path ++ ascii ".pub") = true
      · refine ⟨fsRemove fs (utf8Lossy path ++ ascii ".pub"), ?_, ?_⟩
        · intro q hq1 hq2
          have hs2 : ¬ utf8Lossy path ++ ascii ".pub" = q := fun h => hq2 h.symm
          simp [fsGet_fsRemove, hs2]
        · simp [he1, he2, hr, hc, hw, hf, hk]
      · exact ⟨fs, fun q _ _ => rfl, by simp [he1, he2, hr, hc, hw, hf, hk]⟩
  obtain ⟨base, hbase, heq⟩ := hmain
  rw [heq]
  refine ⟨rfl, ?_⟩
  intro q
  by_cases hq1 : q = utf8Lossy path ++ ascii ".pub"
  · subst hq1
    simp [fsGet_fsWrite]
  · by_cases hq2 : q = path
    · subst hq2
      simp [fsGet_fsWrite, pkPath_ne q, hq1]
    · have h1 : ¬ (utf8Lossy path ++ ascii ".pub" = q) := fun h => hq1 h.symm
      have h2 : ¬ (path = q) := fun h => hq2 h.symm
      simp [fsGet_fsWrite, h1, h2, hq1, hq2, hbase q hq2 hq1]

theorem isValidUtf8_of_ascii :
    ∀ bs : List Nat, (∀ b ∈ bs, b < 128) → isValidUtf8 bs = true
  | [], _ => by simp [isValidUtf8]
  | b :: rest, h => by
    rw [isValidUtf8]
    have hb : b < 128 := h b (by simp)
    have hch : chunk b rest = (true, 1) := by unfold chunk; rw [if_pos hb]
    rw [hch]
    simp [isValidUtf8_of_ascii rest (fun x hx => h x (by simp [hx]))]

theorem utf8Lossy_of_ascii (bs : List Nat) (h : ∀ b ∈ bs, b < 128) :
    utf8Lossy bs = bs :=
  utf8Lossy_of_valid bs (isValidUtf8_of_ascii bs h)

/-- Error classification for `save_keypair`: when the buffered `write!` and
`flush` primitives do not fail, every returned error names a path. -/
theorem save_keypair_errors (kp : KeyPair) (path : Path) (force : Bool)
    (env : Env) (fs : FS)
    (hw : ∀ p, env.writeFail p = false) (hf : ∀ p, env.flushFail p = false)
    (e : SignError) (he : (save_keypair kp path force env fs).2 = .error e) :
    namesPath e = true := by
  unfold save_keypair createFile at he
  by_cases c1 : env.createFail path = true <;>
    by_cases c2 : env.createFail (utf8Lossy path ++ ascii ".pub") = true <;>
    simp only [c1, c2, hw, hf, Bool.false_eq_true, if_false, if_true,
      ite_true, ite_false, eq_self_iff_true] at he <;>
    repeat' split at he
  all_goals cases he
  all_goals simp_all [namesPath]

/-- Error classification for the file signer: when the buffered `write!` and
`flush` primitives do not fail, every returned error names a path, except a
collaborator signing failure and a failed clock read (sign.rs:164), whose
`SystemTimeError` conversion is likewise pathless. -/
theorem sign_errors (secret_key : List Nat) (path : Path) (env : Env)
    (fs : FS) (clock : Except Unit Nat)
    (hw : ∀ p, env.writeFail p = false) (hf : ∀ p, env.flushFail p = false)
    (e : SignError)
    (he : (sign_file_with_secret_key secret_key path env fs clock).2 =
      .error e) :
    namesPath e = true ∨ e = .minisign ∨ e = .systemTime := by
  unfold sign_file_with_secret_key createFile at he
  by_cases c1 :
      env.createFail (simplified (withAdditionalExtension path (ascii "sig"))) =
        true <;>
    simp only [c1, hw, hf, Bool.false_eq_true, if_false, if_true,
      ite_true, ite_false, eq_self_iff_true] at he <;>
    repeat' split at he
  all_goals cases he
  all_goals simp_all [namesPath]

/-! ## Claim theorems -/

/-- C1, counterexample: signing the root path `/` does fail with
`FailedToExtractFilename`, but not before any file is opened for signing:
the signature file `/.sig` has already been created — empty — when the
failure is returned, so the filesystem is not left untouched as the claim
requires (and in the source order the wall-clock time has been read before
the file-name check as well). -/
theorem c1_counterexample :
    sign_file_with_secret_key [0] [47] envOk [] (.ok 0) =
      ([([47, 46, 115, 105, 103], [])],
        .error (.failedToExtractFilename [47])) ∧
    ¬ (sign_file_with_secret_key [0] [47] envOk [] (.ok 0)).1 = [] :=
  ⟨rfl, by decide⟩

/-- C1 (amended): for every path with no extractable file-name component,
provided creating the signature file itself succeeds,
`sign_file_with_secret_key` fails with `FailedToExtractFilename(path)`
before opening the input file and before producing any signature (the
result holds for every signer `env.msign` and never consults it), but
after the signature file has been created and truncated — that creation is
the one filesystem change — and after the wall-clock time has been read. -/
theorem c1_extract_failure_after_sig_creation (secret_key : List Nat)
    (path : Path) (env : Env) (fs : FS) (now : Nat)
    (hname : fileName path = none)
    (hc : env.createFail (path ++ 46 :: ascii "sig") = false) :
    sign_file_with_secret_key secret_key path env fs (.ok now) =
      (fsWrite fs (path ++ 46 :: ascii "sig") [],
       .error (.failedToExtractFilename path)) :=
  sign_noname_run secret_key path env fs now hc hname

theorem c1_extract_failure_after_sig_creation_witness :
    sign_file_with_secret_key [0] [46, 46] envOk [] (.ok 7) =
      (fsWrite [] ([46, 46] ++ 46 :: ascii "sig") [],
       .error (.failedToExtractFilename [46, 46])) :=
  c1_extract_failure_after_sig_creation [0] [46, 46] envOk [] 7 (by decide) rfl

/-- C2 (confirmed): if the secret-key file at `path` exists and
`force = false`, `save_keypair` fails with `SigningKeyExists(path)` and
returns the filesystem exactly as it was, so every file — the secret-key
file, the derived public-key file, and all others — is byte-identical to
its state before the call. -/
theorem c2_overwrite_guard (kp : KeyPair) (path : Path) (env : Env) (fs : FS)
    (h : fsExists fs path = true) :
    save_keypair kp path false env fs =
      (fs, .error (.signingKeyExists path)) := by
  unfold save_keypair
  simp [h]

theorem c2_overwrite_guard_witness :
    save_keypair ⟨[80], [83]⟩ [107] false envOk [([107], [1])] =
      ([([107], [1])], .error (.signingKeyExists [107])) :=
  c2_overwrite_guard ⟨[80], [83]⟩ [107] envOk [([107], [1])] (by decide)

/-- C3, counterexample: when the buffered `write!` to the secret-key file
fails, `save_keypair` returns the failure through the `?` conversion
`From<std::io::Error>` as the plain `io` error, which carries no path —
refuting the claim that no failure is returned that does not name the file
path involved. -/
theorem c3_counterexample :
    (save_keypair ⟨[80], [83]⟩ [107] false envWriteFails []).2 = .error .io ∧
    namesPath .io = false := by
  constructor
  · have hl : utf8Lossy [107] = [107] := utf8Lossy_of_ascii [107] (by decide)
    unfold save_keypair createFile
    simp [hl, fsExists, fsGet, envWriteFails, envOk]
  · rfl

/-- C3 (amended): every filesystem error other than those of the buffered
`write!`/`flush` calls is returned wrapped with a concrete path
(`IoWithPath`, `SigningKeyExists`, or `FailedToExtractFilename`); the
`write!`/`flush` errors go through `From<std::io::Error>` and carry no
path, and the file signer additionally returns two more pathless failures
unwrapped: a collaborator signing failure, and a failed clock read
(`duration_since(UNIX_EPOCH)?` at sign.rs:164, converted from
`SystemTimeError`). -/
theorem c3_io_errors_name_paths (env : Env)
    (hw : ∀ p, env.writeFail p = false)
    (hf : ∀ p, env.flushFail p = false) :
    (∀ (kp : KeyPair) (path : Path) (force : Bool) (fs : FS) (e : SignError),
      (save_keypair kp path force env fs).2 = .error e →
        namesPath e = true) ∧
    (∀ (secret_key : List Nat) (path : Path) (fs : FS)
        (clock : Except Unit Nat) (e : SignError),
      (sign_file_with_secret_key secret_key path env fs clock).2 = .error e →
        namesPath e = true ∨ e = .minisign ∨ e = .systemTime) :=
  ⟨fun kp path force fs e he =>
    save_keypair_errors kp path force env fs hw hf e he,
   fun secret_key path fs clock e he =>
    sign_errors secret_key path env fs clock hw hf e he⟩

theorem c3_io_errors_name_paths_witness :
    namesPath (.signingKeyExists [108]) = true :=
  (c3_io_errors_name_paths envOk (fun _ => rfl) (fun _ => rfl)).1
    ⟨[80], [83]⟩ [108] false [([108], [1])] (.signingKeyExists [108]) rfl

/-- C4 (confirmed): every successful signing call on a path whose last
segment `name` is a valid-UTF-8 file name hands the collaborator a trusted
comment that is exactly `timestamp:` ++ decimal digits of the current time
++ a tab ++ `file:` ++ `name` (so its decoded form matches
`timestamp:\d+\tfile:<name>`), and returns the base64 encoding of the
resulting signature box. -/
theorem c4_trusted_comment (secret_key : List Nat) (path : Path)
    (name : List Nat) (env : Env) (fs : FS) (now : Nat)
    (out : Path × List Nat)
    (hname : fileName path = some name)
    (hvalid : isValidUtf8 name = true)
    (hok : (sign_file_with_secret_key secret_key path env fs (.ok now)).2 =
      .ok out) :
    ∃ contents box,
      fsGet fs path = some contents ∧
      env.msign secret_key contents
        (ascii "timestamp:" ++ natDigits now ++ [9] ++ ascii "file:" ++ name)
        untrustedComment = .ok box ∧
      out = (env.canon (path ++ 46 :: ascii "sig"), b64encode box) ∧
      natDigits now ≠ [] ∧ (∀ d ∈ natDigits now, 48 ≤ d ∧ d ≤ 57) := by
  have hlossy : utf8Lossy name = name := utf8Lossy_of_valid name hvalid
  have hne : ¬ (path ++ 46 :: ascii "sig" = path) :=
    withAdditionalExtension_ne path (ascii "sig")
  unfold sign_file_with_secret_key simplified withAdditionalExtension
    createFile at hok
  simp only [hname, hlossy] at hok
  by_cases hc : env.createFail (path ++ 46 :: ascii "sig") = true
  · simp [hc] at hok
  · simp only [hc, Bool.false_eq_true, if_false, ite_false] at hok
    by_cases ho : env.openFail path = true
    · simp [ho] at hok
    · simp only [ho, Bool.false_eq_true, if_false, ite_false] at hok
      rcases hget : fsGet (fsWrite fs (path ++ 46 :: ascii "sig") []) path
        with _ | contents
      · simp [hget] at hok
      · simp only [hget] at hok
        split at hok
        · simp at hok
        · rename_i box hmsign
          by_cases hwv : env.writeFail (path ++ 46 :: ascii "sig") = true
          · simp [hwv] at hok
          · simp only [hwv, Bool.false_eq_true, if_false, ite_false] at hok
            by_cases hfv : env.flushFail (path ++ 46 :: ascii "sig") = true
            · simp [hfv] at hok
            · simp only [hfv, Bool.false_eq_true, if_false, ite_false] at hok
              by_cases hkv :
                  env.canonFail (path ++ 46 :: ascii "sig") = true
              · simp [hkv] at hok
              · simp only [hkv, Bool.false_eq_true, if_false,
                  ite_false] at hok
                rw [fsGet_fsWrite] at hget
                simp only [hne, if_false, ite_false] at hget
                refine ⟨contents, box, hget, by simpa using hmsign, ?_,
                  natDigits_ne_nil now, natDigits_digits now⟩
                simp at hok
                exact hok.symm

theorem c4_trusted_comment_witness :
    ∃ contents box,
      fsGet [([97, 112, 112, 46, 101, 120, 101], [1, 2, 3])]
        [97, 112, 112, 46, 101, 120, 101] = some contents ∧
      envOk.msign [3] contents
        (ascii "timestamp:" ++ natDigits 5 ++ [9] ++ ascii "file:" ++
          [97, 112, 112, 46, 101, 120, 101]) untrustedComment = .ok box ∧
      (envOk.canon ([97, 112, 112, 46, 101, 120, 101] ++ 46 :: ascii "sig"),
        b64encode [65]) =
        (envOk.canon ([97, 112, 112, 46, 101, 120, 101] ++ 46 :: ascii "sig"),
          b64encode box) ∧
      natDigits 5 ≠ [] ∧ (∀ d ∈ natDigits 5, 48 ≤ d ∧ d ≤ 57) :=
  c4_trusted_comment [3] [97, 112, 112, 46, 101, 120, 101]
    [97, 112, 112, 46, 101, 120, 101] envOk
    [([97, 112, 112, 46, 101, 120, 101], [1, 2, 3])] 5
    (envOk.canon ([97, 112, 112, 46, 101, 120, 101] ++ 46 :: ascii "sig"),
      b64encode [65])
    (by decide)
    (isValidUtf8_of_ascii [97, 112, 112, 46, 101, 120, 101] (by decide))
    (by rw [sign_run [3] [97, 112, 112, 46, 101, 120, 101]
        [97, 112, 112, 46, 101, 120, 101] [1, 2, 3] [65] envOk
        [([97, 112, 112, 46, 101, 120, 101], [1, 2, 3])] 5 (by decide)
        (by decide) rfl rfl rfl rfl rfl rfl])

/-- C5 (confirmed): decoding the base64 encoding of any text (valid-UTF-8
byte string) succeeds and returns the text unchanged, and `decode_base64`
fails with an `InvalidEncoding`-class error exactly when the input is
malformed base64 or the decoded bytes are not valid UTF-8; the function is
pure, so decoding has no side effects. -/
theorem c5_codec (t : List Nat) (hbytes : allBytes t)
    (hvalid : isValidUtf8 t = true) :
    decode_base64 (b64encode t) = .ok t ∧
    ∀ s : List Nat,
      (∃ e, decode_base64 s = .error e ∧ invalidEncodingClass e = true) ↔
      (b64decode s = none ∨
        ∃ bs, b64decode s = some bs ∧ isValidUtf8 bs = false) := by
  constructor
  · unfold decode_base64
    rw [b64decode_b64encode t hbytes]
    simp [hvalid]
  · intro s
    unfold decode_base64
    rcases hbd : b64decode s with _ | bs
    · simp [hbd, invalidEncodingClass]
    · by_cases hv : isValidUtf8 bs = true
      · simp [hbd, hv]
      · simp [hbd, hv, invalidEncodingClass]

theorem c5_codec_witness :
    decode_base64 (b64encode [104, 105]) = .ok [104, 105] :=
  (c5_codec [104, 105] (by unfold allBytes; decide)
    (isValidUtf8_of_ascii [104, 105] (by decide))).1

/-- C6, counterexample: on the non-UTF-8 path `[0xFF]`, `save_keypair`
with `force = true` succeeds but does *not* write the public key to
`path ++ ".pub"`: the source derives the public-key path from
`format!("{}.pub", path.display())`, and `Path::display` converts the
path lossily, so the file lands at `utf8Lossy path ++ ".pub"` instead. -/
theorem c6_counterexample :
    (save_keypair ⟨[80], [83]⟩ [255] true envOk []).2 =
      .ok ([255], [239, 191, 189, 46, 112, 117, 98]) ∧
    fsGet (save_keypair ⟨[80], [83]⟩ [255] true envOk []).1
      ([255] ++ ascii ".pub") = none ∧
    fsGet (save_keypair ⟨[80], [83]⟩ [255] true envOk []).1
      ([239, 191, 189] ++ ascii ".pub") = some [80] := by
  have hl : utf8Lossy [255] = [239, 191, 189] := by simp [utf8Lossy, chunk]
  have ha : ascii ".pub" = [46, 112, 117, 98] := rfl
  unfold save_keypair createFile
  simp [hl, ha, fsExists, fsGet, fsWrite, envOk]

/-- C6 (amended): for every key pair and path, `save_keypair` with
`force = true` succeeds — deleting any existing secret-key file and any
existing derived public-key file first — and afterwards the secret key is
stored at `path`, the public key at the derived public-key path
(`utf8Lossy path ++ ".pub"`, the lossy display of `path` with the fixed
suffix; equal to `path ++ ".pub"` for Unicode paths), and no other file is
touched; calling it twice with `force = true` succeeds both times and the
second pair's files fully replace the first's; and when no secret-key file
exists at `path`, the run is identical for `force = false` (the
public-key file is deleted and rewritten regardless of `force`). -/
theorem c6_force_replaces (kp kp2 : KeyPair) (path : Path) (env : Env)
    (fs : FS)
    (hr : ∀ p, env.removeFail p = false)
    (hc : ∀ p, env.createFail p = false)
    (hw : ∀ p, env.writeFail p = false)
    (hf : ∀ p, env.flushFail p = false)
    (hk : ∀ p, env.canonFail p = false) :
    (save_keypair kp path true env fs).2 =
      .ok (env.canon path, env.canon (utf8Lossy path ++ ascii ".pub")) ∧
    (∀ q, fsGet (save_keypair kp path true env fs).1 q =
      if q = utf8Lossy path ++ ascii ".pub" then some kp.pk
      else if q = path then some kp.sk
      else fsGet fs q) ∧
    (save_keypair kp2 path true env (save_keypair kp path true env fs).1).2 =
      .ok (env.canon path, env.canon (utf8Lossy path ++ ascii ".pub")) ∧
    (∀ q, fsGet (save_keypair kp2 path true env
        (save_keypair kp path true env fs).1).1 q =
      if q = utf8Lossy path ++ ascii ".pub" then some kp2.pk
      else if q = path then some kp2.sk
      else fsGet fs q) ∧
    (fsExists fs path = false →
      save_keypair kp path false env fs = save_keypair kp path true env fs) := by
  obtain ⟨h1, h2⟩ := save_keypair_force kp path env fs hr hc hw hf hk
  obtain ⟨h1', h2'⟩ := save_keypair_force kp2 path env
    (save_keypair kp path true env fs).1 hr hc hw hf hk
  refine ⟨h1, h2, h1', ?_, ?_⟩
  · intro q
    rw [h2' q]
    by_cases hq1 : q = utf8Lossy path ++ ascii ".pub" <;>
      by_cases hq2 : q = path <;> simp [hq1, hq2, h2 q]
  · intro hnx
    unfold save_keypair
    simp [hnx]

theorem c6_force_replaces_witness :
    (save_keypair ⟨[80], [83]⟩ [107] true envOk [([107], [1])]).2 =
      .ok (envOk.canon [107], envOk.canon (utf8Lossy [107] ++ ascii ".pub")) :=
  (c6_force_replaces ⟨[80], [83]⟩ ⟨[81], [84]⟩ [107] envOk [([107], [1])]
    (fun _ => rfl) (fun _ => rfl) (fun _ => rfl) (fun _ => rfl)
    (fun _ => rfl)).1

/-- C7 (confirmed): for every secret key and readable file at a path with
an extractable file name, a fault-free signing run succeeds and writes the
base64-encoded signature to the path derived by appending the `.sig`
suffix, unconditionally replacing whatever was there (the initial
filesystem is arbitrary, so it may already hold a file at that path) and
touching no other file; signing the same file again succeeds and the
second call's output overwrites the first's. -/
theorem c7_sign_overwrites (secret_key : List Nat) (path : Path)
    (name contents box box2 : List Nat) (env : Env) (fs : FS)
    (now now2 : Nat)
    (hname : fileName path = some name)
    (hget : fsGet fs path = some contents)
    (hc : ∀ p, env.createFail p = false)
    (ho : ∀ p, env.openFail p = false)
    (hw : ∀ p, env.writeFail p = false)
    (hf : ∀ p, env.flushFail p = false)
    (hk : ∀ p, env.canonFail p = false)
    (hm : env.msign secret_key contents
      (ascii "timestamp:" ++ natDigits now ++ [9] ++ ascii "file:" ++
        utf8Lossy name) untrustedComment = .ok box)
    (hm2 : env.msign secret_key contents
      (ascii "timestamp:" ++ natDigits now2 ++ [9] ++ ascii "file:" ++
        utf8Lossy name) untrustedComment = .ok box2) :
    (sign_file_with_secret_key secret_key path env fs (.ok now)).2 =
      .ok (env.canon (path ++ 46 :: ascii "sig"), b64encode box) ∧
    fsGet (sign_file_with_secret_key secret_key path env fs (.ok now)).1
      (path ++ 46 :: ascii "sig") = some (b64encode box) ∧
    (∀ q, ¬ q = path ++ 46 :: ascii "sig" →
      fsGet (sign_file_with_secret_key secret_key path env fs (.ok now)).1 q =
        fsGet fs q) ∧
    (sign_file_with_secret_key secret_key path env
        (sign_file_with_secret_key secret_key path env fs (.ok now)).1 (.ok now2)).2 =
      .ok (env.canon (path ++ 46 :: ascii "sig"), b64encode box2) ∧
    fsGet (sign_file_with_secret_key secret_key path env
        (sign_file_with_secret_key secret_key path env fs (.ok now)).1 (.ok now2)).1
      (path ++ 46 :: ascii "sig") = some (b64encode box2) := by
  have h1 := sign_run secret_key path name contents box env fs now hname hget
    (hc _) (ho _) (hw _) (hf _) (hk _) hm
  have hget2 : fsGet (sign_file_with_secret_key secret_key path env fs (.ok now)).1
      path = some contents := by
    rw [h1]
    have hne := withAdditionalExtension_ne path (ascii "sig")
    simp [fsGet_fsWrite, hne, hget]
  have h2 := sign_run secret_key path name contents box2 env
    (sign_file_with_secret_key secret_key path env fs (.ok now)).1 now2
    hname hget2
    (hc _) (ho _) (hw _) (hf _) (hk _) hm2
  refine ⟨by rw [h1], by rw [h1]; simp [fsGet_fsWrite], ?_, by rw [h2],
    by rw [h2]; simp [fsGet_fsWrite]⟩
  intro q hq
  rw [h1]
  have hq' : ¬ (path ++ 46 :: ascii "sig" = q) := fun h => hq h.symm
  simp [fsGet_fsWrite, hq']

theorem c7_sign_overwrites_witness :
    (sign_file_with_secret_key [3] [97] envOk [([97], [1])] (.ok 11)).2 =
      .ok (envOk.canon ([97] ++ 46 :: ascii "sig"), b64encode [65]) :=
  (c7_sign_overwrites [3] [97] [97] [1] [65] [65] envOk [([97], [1])] 11 12
    (by decide) (by decide) (fun _ => rfl) (fun _ => rfl) (fun _ => rfl)
    (fun _ => rfl) (fun _ => rfl) rfl rfl).1

/-- C8 (confirmed): `SigningConfig::new()` returns the defaults
`private_key = ""` and `password = None` (no validation — the constructor
and both builders are total); `private_key` replaces only the private key,
and `password` stores `Some s` leaving the private key unchanged. -/
theorem c8_signing_config_builder :
    SigningConfig.new.private_key = "" ∧
    SigningConfig.new.password = none ∧
    (∀ (c : SigningConfig) (s : String),
      (c.setPrivateKey s).private_key = s ∧
      (c.setPrivateKey s).password = c.password) ∧
    (∀ (c : SigningConfig) (s : String),
      (c.setPassword s).password = some s ∧
      (c.setPassword s).private_key = c.private_key) :=
  ⟨rfl, rfl, fun _ _ => ⟨rfl, rfl⟩, fun _ _ => ⟨rfl, rfl⟩⟩

/-- C9 (confirmed): whenever `sign_file_with_secret_key` fails with
`FailedToExtractFilename` or because opening the input for reading fails,
the derived `.sig` file has already been created and truncated, so the
failing call leaves behind an empty signature file at the derived
signature path, and that file is the only filesystem change. -/
theorem c9_empty_sig_left_on_failure (secret_key : List Nat) (path : Path)
    (name : List Nat) (env : Env) (fs : FS) (now : Nat)
    (hc : env.createFail (path ++ 46 :: ascii "sig") = false)
    (hfail : fileName path = none ∨
      (fileName path = some name ∧
        (env.openFail path = true ∨ fsGet fs path = none))) :
    (∃ e, (sign_file_with_secret_key secret_key path env fs (.ok now)).2 =
      .error e) ∧
    (sign_file_with_secret_key secret_key path env fs (.ok now)).1 =
      fsWrite fs (path ++ 46 :: ascii "sig") [] ∧
    fsGet (sign_file_with_secret_key secret_key path env fs (.ok now)).1
      (path ++ 46 :: ascii "sig") = some [] := by
  rcases hfail with h | ⟨h1, h2⟩
  · rw [sign_noname_run secret_key path env fs now hc h]
    exact ⟨⟨_, rfl⟩, rfl, by simp [fsGet_fsWrite]⟩
  · rw [sign_openfail_run secret_key path name env fs now hc h1 h2]
    exact ⟨⟨_, rfl⟩, rfl, by simp [fsGet_fsWrite]⟩

theorem c9_empty_sig_left_on_failure_witness :
    (∃ e, (sign_file_with_secret_key [3] [97] envOk [] (.ok 1)).2 = .error e) ∧
    (sign_file_with_secret_key [3] [97] envOk [] (.ok 1)).1 =
      fsWrite [] ([97] ++ 46 :: ascii "sig") [] ∧
    fsGet (sign_file_with_secret_key [3] [97] envOk [] (.ok 1)).1
      ([97] ++ 46 :: ascii "sig") = some [] :=
  c9_empty_sig_left_on_failure [3] [97] [97] envOk [] 1 rfl
    (Or.inr ⟨by decide, Or.inr rfl⟩)

/-- C10 (confirmed): signing a file whose last path segment is not valid
UTF-8 does not fail on that account — the run succeeds, the file name is
converted lossily (`utf8Lossy`, invalid bytes becoming U+FFFD) before
being embedded in the trusted comment, and the embedded name necessarily
differs from the on-disk name. -/
theorem c10_lossy_name (secret_key : List Nat) (path : Path)
    (name contents box : List Nat) (env : Env) (fs : FS) (now : Nat)
    (hname : fileName path = some name)
    (hinvalid : isValidUtf8 name = false)
    (hget : fsGet fs path = some contents)
    (hc : ∀ p, env.createFail p = false)
    (ho : ∀ p, env.openFail p = false)
    (hw : ∀ p, env.writeFail p = false)
    (hf : ∀ p, env.flushFail p = false)
    (hk : ∀ p, env.canonFail p = false)
    (hm : env.msign secret_key contents
      (ascii "timestamp:" ++ natDigits now ++ [9] ++ ascii "file:" ++
        utf8Lossy name) untrustedComment = .ok box) :
    (sign_file_with_secret_key secret_key path env fs (.ok now)).2 =
      .ok (env.canon (path ++ 46 :: ascii "sig"), b64encode box) ∧
    ¬ utf8Lossy name = name := by
  have h1 := sign_run secret_key path name contents box env fs now hname hget
    (hc _) (ho _) (hw _) (hf _) (hk _) hm
  exact ⟨by rw [h1], utf8Lossy_ne_of_invalid name hinvalid⟩

theorem c10_lossy_name_witness :
    (sign_file_with_secret_key [3] [97, 47, 255] envOk
        [([97, 47, 255], [1])] (.ok 2)).2 =
      .ok (envOk.canon ([97, 47, 255] ++ 46 :: ascii "sig"),
        b64encode [65]) ∧
    ¬ utf8Lossy [255] = [255] :=
  c10_lossy_name [3] [97, 47, 255] [255] [1] [65] envOk
    [([97, 47, 255], [1])] 2 (by decide) (by simp [isValidUtf8, chunk])
    (by decide) (fun _ => rfl) (fun _ => rfl) (fun _ => rfl) (fun _ => rfl)
    (fun _ => rfl) rfl

end Sign

